import Mathlib

/-!
Shallow embedding of the Host UART driver core
(src/Sming/Arch/Host/Components/driver/uart.cpp).

Pure functions of the source become Lean functions; the process-wide
mutable state (debug port selection, interrupt-enable bitmask, port
registry) becomes an explicit `UartState` threaded through the
operations.  Notification callbacks are observed through an explicit
event trace rather than executed.  Components of this repository that
are only declared, not defined, under src/ (the `SerialBuffer` ring
buffer class, the header inlines `smg_uart_rx_enabled`,
`smg_uart_tx_enabled`, `smg_uart_stop_isr`, the allocation helper
`smg_uart_realloc_buffer`, and the target constants) are modelled from
the spec, as marked on each definition.
-/

abbrev Byte := Nat

/-- Modelled from the spec: `SerialBuffer` (driver/SerialBuffer.h, not under
src/) is a fixed-capacity FIFO byte ring with `available + free_space =
capacity`; we represent the readable content as a list, oldest byte first. -/
structure SerialBuffer where
  capacity : Nat
  data : List Byte
deriving DecidableEq

/-- Modelled from the spec: `available() -> count`, the number of readable bytes. -/
def SerialBuffer.available (b : SerialBuffer) : Nat :=
  b.data.length

/-- Modelled from the spec: `free_space() -> count`, writable bytes. -/
def SerialBuffer.getFreeSpace (b : SerialBuffer) : Nat :=
  b.capacity - b.data.length

/-- Modelled from the spec: emptiness test used by the read/write loops. -/
def SerialBuffer.isEmpty (b : SerialBuffer) : Bool :=
  b.data.isEmpty

/-- Modelled from the spec: `write_byte(b) -> bool`, fails (returns false,
buffer unchanged) when the buffer is full. -/
def SerialBuffer.writeChar (b : SerialBuffer) (c : Byte) : SerialBuffer × Bool :=
  if b.data.length < b.capacity then ({ b with data := b.data ++ [c] }, true)
  else (b, false)

/-- Modelled from the spec: `read_byte() -> byte`, only called when not empty
(the value returned on an empty buffer is irrelevant to the driver loops). -/
def SerialBuffer.readChar : SerialBuffer → Byte × SerialBuffer
  | ⟨cap, []⟩ => (0, ⟨cap, []⟩)
  | ⟨cap, c :: rest⟩ => (c, ⟨cap, rest⟩)

/-- Modelled from the spec: `clear()` resets to empty, discarding content. -/
def SerialBuffer.clear (b : SerialBuffer) : SerialBuffer :=
  { b with data := [] }

/-- Direction mode of a port (uart.h enum `smg_uart_mode_t`). -/
inductive smg_uart_mode_t
  | UART_FULL
  | UART_RX_ONLY
  | UART_TX_ONLY
deriving DecidableEq

export smg_uart_mode_t (UART_FULL UART_RX_ONLY UART_TX_ONLY)

/-- Notification codes fired through `notify` (uart.h `smg_uart_notify_code_t`). -/
inductive smg_uart_notify_code_t
  | UART_NOTIFY_AFTER_OPEN
  | UART_NOTIFY_BEFORE_CLOSE
  | UART_NOTIFY_BEFORE_READ
  | UART_NOTIFY_AFTER_WRITE
  | UART_NOTIFY_WAIT_TX
deriving DecidableEq

export smg_uart_notify_code_t (UART_NOTIFY_AFTER_OPEN UART_NOTIFY_BEFORE_CLOSE
  UART_NOTIFY_BEFORE_READ UART_NOTIFY_AFTER_WRITE UART_NOTIFY_WAIT_TX)

/-- Observable events of a driver call: notification callbacks invoked (in
order) and the interrupt being disarmed.  The trace makes the ordering of
side effects inside an operation provable. -/
inductive UartEvent
  | notifyEvt (nr : Nat) (code : smg_uart_notify_code_t)
  | stopIsrEvt (nr : Nat)
deriving DecidableEq, BEq

/-- The port object `smg_uart_t` (uart.h): identifier, direction mode, option
flags, pins, baud rate, RX headroom and the owned ring buffers.  The
per-byte `callback`/`param` pair is not needed by any claim and is omitted;
the notification callbacks live in process state and are observed as events. -/
structure smg_uart_t where
  uart_nr : Nat
  mode : smg_uart_mode_t
  options : Nat
  tx_pin : Int
  rx_pin : Int
  baud_rate : Nat
  rx_headroom : Nat
  rx_buffer : Option SerialBuffer
  tx_buffer : Option SerialBuffer
deriving DecidableEq

/-- Configuration descriptor `smg_uart_config_t` passed to `smg_uart_init_ex`.
The `format` word is opaque to this core and carried as a number. -/
structure smg_uart_config_t where
  uart_nr : Nat
  tx_pin : Int
  mode : smg_uart_mode_t
  options : Nat
  baudrate : Nat
  format : Nat
  rx_size : Nat
  tx_size : Nat
deriving DecidableEq

/-- Modelled from the spec: heap allocation may fail (`new` for the port
object, and the RX/TX buffer allocations inside `smg_uart_realloc_buffer`,
which is not under src/).  The oracle says which allocations succeed. -/
structure AllocOracle where
  portOk : Bool
  rxOk : Bool
  txOk : Bool
deriving DecidableEq

/-- Modelled from the spec: `UART_COUNT`, the fixed port-count constant of the
target (uart.h, not under src/); the claims are independent of its value. -/
def UART_COUNT : Nat := 3

/-- Modelled from the spec: `UART_RX_FIFO_SIZE`, hardware RX FIFO size of the
target (128 bytes), the reserve added to a requested RX capacity. -/
def UART_RX_FIFO_SIZE : Nat := 128

/-- Modelled from the spec: `UART_TX_FIFO_SIZE`, hardware TX FIFO size (128). -/
def UART_TX_FIFO_SIZE : Nat := 128

/-- Modelled from the spec: `UART_NO`, the "no port" sentinel of the debug
selection. -/
def UART_NO : Int := -1

/-- Modelled from the spec: `UART_PIN_DEFAULT` pin sentinel (uart.h). -/
def UART_PIN_DEFAULT : Int := 255

/-- Modelled from the spec: option bit `UART_OPT_TXWAIT` ("wait for space on
write"), the bit index tested by `bitRead(uart->options, UART_OPT_TXWAIT)`. -/
def UART_OPT_TXWAIT : Nat := 0

/-- RX_FIFO_FULL_THRESHOLD (uart.cpp line 43): UIFF interrupt when FIFO bytes
exceed this threshold. -/
def RX_FIFO_FULL_THRESHOLD : Nat := 120

/-- RX_FIFO_HEADROOM (uart.cpp line 44): chars between UIFF and UIOF. -/
def RX_FIFO_HEADROOM : Nat := UART_RX_FIFO_SIZE - RX_FIFO_FULL_THRESHOLD

/-- DEFAULT_RX_HEADROOM (uart.cpp line 50). -/
def DEFAULT_RX_HEADROOM : Nat := 32 - RX_FIFO_HEADROOM

/-- BitManipulations `bitSet`: set bit `n` of `mask`. -/
def bitSet (mask n : Nat) : Nat := mask ||| (1 <<< n)

/-- BitManipulations `bitClear`: clear bit `n` of `mask`. -/
def bitClear (mask n : Nat) : Nat :=
  if mask.testBit n then mask ^^^ (1 <<< n) else mask

/-- The process-wide mutable state of uart.cpp: the debug port selection
`s_uart_debug_nr`, the interrupt-enable bitmask `isrMask` and the registry
`uartInstances` (a fixed-size table of length `UART_COUNT`). -/
structure UartState where
  s_uart_debug_nr : Int
  isrMask : Nat
  uartInstances : List (Option smg_uart_t)
deriving DecidableEq

/-- Process state at start-up: no debug port, no interrupts armed, empty
registry. -/
def initialState : UartState :=
  { s_uart_debug_nr := UART_NO, isrMask := 0,
    uartInstances := List.replicate UART_COUNT none }

/-- smg_uart_get_uart (uart.cpp lines 83-86): registry lookup, `nullptr` for
an out-of-range identifier. -/
def smg_uart_get_uart (st : UartState) (uart_nr : Nat) : Option smg_uart_t :=
  if uart_nr < UART_COUNT then (st.uartInstances.getD uart_nr none) else none

/-- smg_uart_set_debug (uart.cpp lines 404-407). -/
def smg_uart_set_debug (st : UartState) (uart_nr : Int) : UartState :=
  { st with s_uart_debug_nr := uart_nr }

/-- smg_uart_get_debug (uart.cpp lines 409-412). -/
def smg_uart_get_debug (st : UartState) : Int :=
  st.s_uart_debug_nr

/-- smg_uart_detach (uart.cpp lines 414-417): clear the port's bit in the
interrupt-enable mask. -/
def smg_uart_detach (st : UartState) (uart_nr : Nat) : UartState :=
  { st with isrMask := bitClear st.isrMask uart_nr }

/-- smg_uart_start_isr (uart.cpp lines 156-161): idempotently set the port's
interrupt-enable bit. -/
def smg_uart_start_isr (st : UartState) (u : smg_uart_t) : UartState :=
  if st.isrMask.testBit u.uart_nr then st
  else { st with isrMask := bitSet st.isrMask u.uart_nr }

/-- Modelled from the spec: `smg_uart_stop_isr` (a header inline, not under
src/) marks a port's interrupt disabled, i.e. detaches its identifier. -/
def smg_uart_stop_isr (st : UartState) (u : smg_uart_t) : UartState :=
  smg_uart_detach st u.uart_nr

/-- Modelled from the spec: `smg_uart_rx_enabled` (header inline, not under
src/): a port can receive iff it exists and its mode includes RX. -/
def smg_uart_rx_enabled (ou : Option smg_uart_t) : Bool :=
  match ou with
  | none => false
  | some u => u.mode != UART_TX_ONLY

/-- Modelled from the spec: `smg_uart_tx_enabled` (header inline, not under
src/): a port can transmit iff it exists and its mode includes TX. -/
def smg_uart_tx_enabled (ou : Option smg_uart_t) : Bool :=
  match ou with
  | none => false
  | some u => u.mode != UART_RX_ONLY

/-- Modelled from the spec: `smg_uart_realloc_buffer` (not under src/):
allocate a fresh empty buffer of the requested size, or fail. -/
def smg_uart_realloc_buffer (ok : Bool) (size : Nat) : Option SerialBuffer :=
  if ok then some { capacity := size, data := [] } else none

/-- Whether the TXWAIT option bit is set on a port. -/
def txwaitOpt (u : smg_uart_t) : Bool :=
  Nat.testBit u.options UART_OPT_TXWAIT

/-- Inner fill loop of smg_uart_write (uart.cpp line 175):
`while(written < size && tx_buffer->writeChar(buf[written])) ++written;` —
writes bytes into the TX buffer until it is full or the data is exhausted,
returning the updated buffer and the bytes actually accepted. -/
def fillLoop : SerialBuffer → List Byte → SerialBuffer × List Byte
  | tx, [] => (tx, [])
  | tx, c :: rest =>
    match tx.writeChar c with
    | (tx1, true) =>
      let r := fillLoop tx1 rest
      (r.1, c :: r.2)
    | (tx1, false) => (tx1, [])

/-- Outer loop of smg_uart_write (uart.cpp lines 173-185).  Each pass fills
the TX buffer (when present), fires AFTER_WRITE — during which the
registered callback / interrupt-context consumer may drain bytes from the
front of the TX buffer, modelled by `consumer pass` — and repeats only when
the TXWAIT option is set.  `fuel` bounds the number of passes (the C loop
can spin forever without a consumer); exhausted fuel returns what has been
written so far.  Returns (TX buffer, accepted bytes, number of passes). -/
def writeLoop (consumer : Nat → Nat) (txwait : Bool) :
    Nat → Nat → Option SerialBuffer → List Byte →
    Option SerialBuffer × List Byte × Nat
  | 0, _, otx, _ => (otx, [], 0)
  | Nat.succ fuel, pass, otx, rem =>
    if rem.isEmpty then (otx, [], 0)
    else
      let fill : Option SerialBuffer × List Byte :=
        match otx with
        | some tx =>
          let r := fillLoop tx rem
          (some r.1, r.2)
        | none => (none, [])
      let otx2 := fill.1.map fun tx => { tx with data := tx.data.drop (consumer pass) }
      if txwait then
        let r := writeLoop consumer txwait fuel (pass + 1) otx2 (rem.drop fill.2.length)
        (r.1, fill.2 ++ r.2.1, r.2.2 + 1)
      else (otx2, fill.2, 1)

/-- smg_uart_write on a non-null port (uart.cpp lines 163-188).  The data
pointer is represented by the byte list plus a null flag; the accepted bytes
are returned as a list (the C function returns their count).  `consumer`
models the drain performed by the AFTER_WRITE callback, `fuel` bounds the
TXWAIT retry loop. -/
def uart_write (u : smg_uart_t) (bufNull : Bool) (bytes : List Byte)
    (consumer : Nat → Nat) (fuel : Nat) :
    smg_uart_t × List Byte × List UartEvent :=
  if u.mode = UART_RX_ONLY ∨ bufNull ∨ bytes = [] then (u, [], [])
  else
    let r := writeLoop consumer (txwaitOpt u) fuel 0 u.tx_buffer bytes
    ({ u with tx_buffer := r.1 }, r.2.1,
      List.replicate r.2.2 (UartEvent.notifyEvt u.uart_nr UART_NOTIFY_AFTER_WRITE))

/-- smg_uart_write (uart.cpp lines 163-188): returns 0 bytes when TX is
disabled (including a null port), the source pointer is null, or len is 0. -/
def smg_uart_write (ou : Option smg_uart_t) (bufNull : Bool) (bytes : List Byte)
    (consumer : Nat → Nat) (fuel : Nat) :
    Option smg_uart_t × List Byte × List UartEvent :=
  match ou with
  | none => (none, [], [])
  | some u =>
    let r := uart_write u bufNull bytes consumer fuel
    (some r.1, r.2.1, r.2.2)

/-- Read drain loop of smg_uart_read (uart.cpp lines 130-131):
`while(read < size && !rx_buffer->isEmpty()) buf[read++] = readChar();`. -/
def readLoop : SerialBuffer → Nat → SerialBuffer × List Byte
  | rb, 0 => (rb, [])
  | rb, Nat.succ n =>
    if rb.isEmpty then (rb, [])
    else
      let c := rb.readChar
      let r := readLoop c.2 n
      (r.1, c.1 :: r.2)

/-- smg_uart_read on a non-null port (uart.cpp lines 116-135): fires
BEFORE_READ, then drains up to `size` bytes from the RX buffer in order. -/
def uart_read (u : smg_uart_t) (bufNull : Bool) (size : Nat) :
    smg_uart_t × List Byte × List UartEvent :=
  if u.mode = UART_TX_ONLY ∨ bufNull ∨ size = 0 then (u, [], [])
  else
    let evs := [UartEvent.notifyEvt u.uart_nr UART_NOTIFY_BEFORE_READ]
    match u.rx_buffer with
    | none => (u, [], evs)
    | some rb =>
      let r := readLoop rb size
      ({ u with rx_buffer := some r.1 }, r.2, evs)

/-- smg_uart_read (uart.cpp lines 116-135): returns 0 bytes when RX is
disabled (including a null port), the destination is null, or max_len is 0. -/
def smg_uart_read (ou : Option smg_uart_t) (bufNull : Bool) (size : Nat) :
    Option smg_uart_t × List Byte × List UartEvent :=
  match ou with
  | none => (none, [], [])
  | some u =>
    let r := uart_read u bufNull size
    (some r.1, r.2.1, r.2.2)

/-- Buffer-clearing body of smg_uart_flush (uart.cpp lines 237-256):
`flushRx = mode != UART_TX_ONLY && uart->mode != UART_TX_ONLY`,
`flushTx = mode != UART_RX_ONLY && uart->mode != UART_RX_ONLY`, then each
selected, present buffer is cleared. -/
def flushBuffers (u : smg_uart_t) (mode : smg_uart_mode_t) : smg_uart_t :=
  let flushRx : Bool := mode != UART_TX_ONLY && u.mode != UART_TX_ONLY
  let flushTx : Bool := mode != UART_RX_ONLY && u.mode != UART_RX_ONLY
  let u1 :=
    match flushRx, u.rx_buffer with
    | true, some rb => { u with rx_buffer := some rb.clear }
    | _, _ => u
  match flushTx, u1.tx_buffer with
  | true, some tb => { u1 with tx_buffer := some tb.clear }
  | _, _ => u1

/-- smg_uart_flush (uart.cpp lines 237-256): a no-op on a null port. -/
def smg_uart_flush (ou : Option smg_uart_t) (mode : smg_uart_mode_t) :
    Option smg_uart_t :=
  match ou with
  | none => none
  | some u => some (flushBuffers u mode)

/-- smg_uart_set_baudrate_reg (uart.cpp lines 258-261): the host target
quantizes every requested rate to itself. -/
def smg_uart_set_baudrate_reg (uart_nr : Nat) (baud_rate : Nat) : Nat :=
  baud_rate

/-- Port object constructed on the success path of smg_uart_init_ex (uart.cpp
lines 291-327): zero-initialised fields, identifier/mode/options from the
configuration, default pins and RX headroom, buffers allocated for the
enabled directions with the hardware-FIFO reserve added, the baud rate
applied (`smg_uart_set_baudrate`), the format applied (a no-op on this
target), and both buffers flushed. -/
def initPort (cfg : smg_uart_config_t) (orc : AllocOracle) : smg_uart_t :=
  let u0 : smg_uart_t :=
    { uart_nr := cfg.uart_nr, mode := cfg.mode, options := cfg.options,
      tx_pin := UART_PIN_DEFAULT, rx_pin := UART_PIN_DEFAULT,
      baud_rate := 0, rx_headroom := DEFAULT_RX_HEADROOM,
      rx_buffer := none, tx_buffer := none }
  let rxb : Option SerialBuffer :=
    if smg_uart_rx_enabled (some u0) then
      smg_uart_realloc_buffer orc.rxOk (cfg.rx_size + UART_RX_FIFO_SIZE)
    else none
  let txb : Option SerialBuffer :=
    if smg_uart_tx_enabled (some u0) then
      smg_uart_realloc_buffer orc.txOk (cfg.tx_size + UART_TX_FIFO_SIZE)
    else none
  let u1 := { u0 with
    rx_buffer := rxb
    tx_buffer := txb
    baud_rate := smg_uart_set_baudrate_reg cfg.uart_nr cfg.baudrate }
  flushBuffers u1 UART_FULL

/-- smg_uart_init_ex (uart.cpp lines 280-334), as a state transformer.  Fails
(returning `none` with the state untouched) when the identifier is already
registered, out of range, or an allocation denied by the oracle fails; the
guards on `cfg.mode` are exactly `smg_uart_rx_enabled`/`smg_uart_tx_enabled`
evaluated on the port being built, and on a TX-buffer failure the
already-allocated RX buffer is released with the port (heap disposal, no
process-state effect).  On success: detach stale interrupt state, register
the configured, flushed port (`initPort`), arm the interrupt, fire
AFTER_OPEN. -/
def smg_uart_init_ex (st : UartState) (cfg : smg_uart_config_t)
    (orc : AllocOracle) : Option smg_uart_t × UartState × List UartEvent :=
  if (smg_uart_get_uart st cfg.uart_nr).isSome then (none, st, [])
  else if UART_COUNT ≤ cfg.uart_nr then (none, st, [])
  else if orc.portOk = false then (none, st, [])
  else if cfg.mode ≠ UART_TX_ONLY ∧ orc.rxOk = false then (none, st, [])
  else if cfg.mode ≠ UART_RX_ONLY ∧ orc.txOk = false then (none, st, [])
  else
    let u2 := initPort cfg orc
    let st1 := smg_uart_detach st cfg.uart_nr
    let st2 := { st1 with
      uartInstances := st1.uartInstances.set cfg.uart_nr (some u2) }
    let st3 := smg_uart_start_isr st2 u2
    (some u2, st3, [UartEvent.notifyEvt cfg.uart_nr UART_NOTIFY_AFTER_OPEN])

/-- smg_uart_uninit (uart.cpp lines 336-353): a no-op on a null port;
otherwise fires BEFORE_CLOSE, then disarms the interrupt, clears the debug
selection if this port was the debug sink, and releases the buffers and the
port object.  The source does NOT clear `uartInstances[uart_nr]`, so the
registry entry is left as it was. -/
def smg_uart_uninit (st : UartState) (ou : Option smg_uart_t) :
    UartState × List UartEvent :=
  match ou with
  | none => (st, [])
  | some u =>
    let st1 := smg_uart_stop_isr st u
    let st2 :=
      if (u.uart_nr : Int) = st1.s_uart_debug_nr then smg_uart_set_debug st1 UART_NO
      else st1
    (st2, [UartEvent.notifyEvt u.uart_nr UART_NOTIFY_BEFORE_CLOSE,
           UartEvent.stopIsrEvt u.uart_nr])

/-- Modelled from the spec: the interrupt-context FIFO drain (an external
collaborator, not under src/) "drains the hardware FIFO into the Port's RX
RingBuffer and refills TX from the Port's TX RingBuffer"; on the host target
the two ends are looped back, so a drain step moves up to `n` bytes, in
order, from the front of the TX ring to the back of the RX ring, limited by
the RX free space (bytes are never dropped from a ring). -/
def uart_drain (u : smg_uart_t) (n : Nat) : smg_uart_t :=
  match u.rx_buffer, u.tx_buffer with
  | some rb, some tb =>
    let m := min (min n tb.data.length) (rb.capacity - rb.data.length)
    { u with rx_buffer := some { rb with data := rb.data ++ tb.data.take m },
             tx_buffer := some { tb with data := tb.data.drop m } }
  | _, _ => u

/-- One task-context operation of a write/drain/read sequence (claim C4):
a driver write, an interrupt-context drain step, or a driver read. -/
inductive PortOp
  | opWrite (bytes : List Byte) (fuel : Nat)
  | opDrain (n : Nat)
  | opRead (n : Nat)

/-- Run a sequence of operations on a port with no registered callback
(consumer drains nothing during AFTER_WRITE), collecting the bytes accepted
by the writes and the bytes returned by the reads, in order. -/
def runOps : smg_uart_t → List PortOp → smg_uart_t × List Byte × List Byte
  | u, [] => (u, [], [])
  | u, PortOp.opWrite bs fuel :: rest =>
    let s := uart_write u false bs (fun _ => 0) fuel
    let r := runOps s.1 rest
    (r.1, s.2.1 ++ r.2.1, r.2.2)
  | u, PortOp.opDrain n :: rest =>
    runOps (uart_drain u n) rest
  | u, PortOp.opRead n :: rest =>
    let s := uart_read u false n
    let r := runOps s.1 rest
    (r.1, r.2.1, s.2.1 ++ r.2.2)

/-- Readable content of a port's RX ring ([] when absent). -/
def rxData (u : smg_uart_t) : List Byte :=
  match u.rx_buffer with
  | some rb => rb.data
  | none => []

/-- Readable content of a port's TX ring ([] when absent). -/
def txData (u : smg_uart_t) : List Byte :=
  match u.tx_buffer with
  | some tb => tb.data
  | none => []

/-- TX free space of a port (0 when the TX ring is absent). -/
def txFreeOf (u : smg_uart_t) : Nat :=
  match u.tx_buffer with
  | some tb => tb.getFreeSpace
  | none => 0

/-- RX bytes available on a port (0 when the RX ring is absent). -/
def rxAvailOf (u : smg_uart_t) : Nat :=
  match u.rx_buffer with
  | some rb => rb.available
  | none => 0

/-- A concrete configuration: port 0, both directions, no options. -/
def cfg0 : smg_uart_config_t :=
  { uart_nr := 0, tx_pin := UART_PIN_DEFAULT, mode := UART_FULL, options := 0,
    baudrate := 115200, format := 0, rx_size := 0, tx_size := 0 }

/-- An oracle under which every allocation succeeds. -/
def orcOk : AllocOracle := { portOk := true, rxOk := true, txOk := true }

/-- A placeholder port value used only as a `getD` default. -/
def dummyUart : smg_uart_t :=
  { uart_nr := 0, mode := UART_FULL, options := 0, tx_pin := UART_PIN_DEFAULT,
    rx_pin := UART_PIN_DEFAULT, baud_rate := 0, rx_headroom := 0,
    rx_buffer := none, tx_buffer := none }

/-- The port produced by opening `cfg0` on the initial state. -/
def p0 : smg_uart_t :=
  (smg_uart_init_ex initialState cfg0 orcOk).1.getD dummyUart

/-- An oracle under which the RX buffer allocation fails. -/
def orcNoRx : AllocOracle := { portOk := true, rxOk := false, txOk := true }

/-- A port with a full 2-byte TX buffer and the TXWAIT option clear. -/
def uFullTx : smg_uart_t :=
  { dummyUart with tx_buffer := some { capacity := 2, data := [9, 9] } }

/-- A port with a 1-byte TX buffer and the TXWAIT option set (bit 0). -/
def uWait : smg_uart_t :=
  { dummyUart with options := 1, tx_buffer := some { capacity := 1, data := [] } }

/-- A TX-only port that nevertheless holds RX data, to exhibit that reading it
is a no-op. -/
def uTxOnly : smg_uart_t :=
  { dummyUart with
    mode := UART_TX_ONLY
    rx_buffer := some { capacity := 4, data := [1, 2] } }

/-- A concrete write/drain/read sequence. -/
def opsW : List PortOp :=
  [PortOp.opWrite [1, 2, 3] 1, PortOp.opDrain 2, PortOp.opRead 5]

theorem readLoop_spec (n : Nat) : ∀ rb : SerialBuffer,
    readLoop rb n = ({ rb with data := rb.data.drop n }, rb.data.take n) := by
  induction n with
  | zero => intro rb; simp [readLoop]
  | succ n ih =>
    intro rb
    obtain ⟨cap, data⟩ := rb
    cases data with
    | nil => simp [readLoop, SerialBuffer.isEmpty]
    | cons c rest =>
      simp [readLoop, SerialBuffer.isEmpty, SerialBuffer.readChar, ih ⟨cap, rest⟩]

theorem fillLoop_spec : ∀ (bs : List Byte) (tx : SerialBuffer),
    fillLoop tx bs =
      ({ tx with data := tx.data ++ bs.take tx.getFreeSpace },
        bs.take tx.getFreeSpace) := by
  intro bs
  induction bs with
  | nil => intro tx; simp [fillLoop]
  | cons c rest ih =>
    intro tx
    by_cases h : tx.data.length < tx.capacity
    · have hfree : tx.getFreeSpace = (tx.getFreeSpace - 1) + 1 := by
        unfold SerialBuffer.getFreeSpace; omega
      have h2 : SerialBuffer.getFreeSpace
          { tx with data := tx.data ++ [c] } = tx.getFreeSpace - 1 := by
        simp [SerialBuffer.getFreeSpace]; omega
      simp only [fillLoop, SerialBuffer.writeChar, if_pos h, ih, h2]
      rw [hfree]
      simp [List.take_succ_cons]
    · have hfree : tx.getFreeSpace = 0 := by
        unfold SerialBuffer.getFreeSpace; omega
      simp [fillLoop, SerialBuffer.writeChar, if_neg h, hfree]

theorem flushBuffers_spec (u : smg_uart_t) (m : smg_uart_mode_t) :
    flushBuffers u m = { u with
      rx_buffer := if m ≠ UART_TX_ONLY ∧ u.mode ≠ UART_TX_ONLY
        then u.rx_buffer.map SerialBuffer.clear else u.rx_buffer
      tx_buffer := if m ≠ UART_RX_ONLY ∧ u.mode ≠ UART_RX_ONLY
        then u.tx_buffer.map SerialBuffer.clear else u.tx_buffer } := by
  obtain ⟨nr, mo, op, tp, rp, br, rh, rxb, txb⟩ := u
  cases m <;> cases mo <;> cases rxb <;> cases txb <;> rfl

theorem initPort_rx_headroom (cfg : smg_uart_config_t) (orc : AllocOracle) :
    (initPort cfg orc).rx_headroom = DEFAULT_RX_HEADROOM := by
  simp [initPort, flushBuffers_spec]

theorem initPort_buffers_empty (cfg : smg_uart_config_t) (orc : AllocOracle) :
    rxData (initPort cfg orc) = [] ∧ txData (initPort cfg orc) = [] := by
  simp only [initPort, flushBuffers_spec, smg_uart_rx_enabled,
    smg_uart_tx_enabled, smg_uart_realloc_buffer]
  cases cfg.mode <;> cases orc.rxOk <;> cases orc.txOk <;>
    simp [rxData, txData, SerialBuffer.clear]

theorem init_ex_some (st : UartState) (cfg : smg_uart_config_t)
    (orc : AllocOracle) (u : smg_uart_t)
    (h : (smg_uart_init_ex st cfg orc).1 = some u) :
    u = initPort cfg orc := by
  revert h
  unfold smg_uart_init_ex
  split
  · intro h; exact absurd h (by simp)
  · split
    · intro h; exact absurd h (by simp)
    · split
      · intro h; exact absurd h (by simp)
      · split
        · intro h; exact absurd h (by simp)
        · split
          · intro h; exact absurd h (by simp)
          · intro h; simp at h; exact h.symm

theorem init_ex_fail_frame (st : UartState) (cfg : smg_uart_config_t)
    (orc : AllocOracle) (h : (smg_uart_init_ex st cfg orc).1 = none) :
    (smg_uart_init_ex st cfg orc).2 = (st, []) := by
  revert h
  unfold smg_uart_init_ex
  split
  · intro _; rfl
  · split
    · intro _; rfl
    · split
      · intro _; rfl
      · split
        · intro _; rfl
        · split
          · intro _; rfl
          · intro h; exact absurd h (by simp)

theorem take_drop_len (l : List Byte) (n : Nat) :
    l.take n ++ l.drop ((l.take n).length) = l := by
  rw [List.length_take]
  rcases Nat.le_total n l.length with h | h
  · rw [Nat.min_eq_left h, List.take_append_drop]
  · rw [Nat.min_eq_right h, List.drop_length, List.append_nil,
      List.take_of_length_le h]

theorem writeLoop_none (consumer : Nat → Nat) (tw : Bool) :
    ∀ (fuel pass : Nat) (rem : List Byte),
      (writeLoop consumer tw fuel pass none rem).1 = none ∧
      (writeLoop consumer tw fuel pass none rem).2.1 = [] := by
  intro fuel
  induction fuel with
  | zero => intro pass rem; simp [writeLoop]
  | succ f ih =>
    intro pass rem
    cases rem with
    | nil => simp [writeLoop]
    | cons c rest =>
      cases tw with
      | false => simp [writeLoop]
      | true =>
        have h := ih (pass + 1) (c :: rest)
        simp [writeLoop, h.1, h.2]

theorem writeLoop_cons_true (consumer : Nat → Nat) (f pass : Nat)
    (tx : SerialBuffer) (c : Byte) (rest : List Byte) :
    writeLoop consumer true (f + 1) pass (some tx) (c :: rest) =
      (let acc := (c :: rest).take tx.getFreeSpace
       let tx2 : SerialBuffer :=
         { capacity := tx.capacity, data := (tx.data ++ acc).drop (consumer pass) }
       let r := writeLoop consumer true f (pass + 1) (some tx2) ((c :: rest).drop acc.length)
       (r.1, acc ++ r.2.1, r.2.2 + 1)) := by
  simp [writeLoop, fillLoop_spec]

theorem writeLoop_cons_false (consumer : Nat → Nat) (f pass : Nat)
    (tx : SerialBuffer) (c : Byte) (rest : List Byte) :
    writeLoop consumer false (f + 1) pass (some tx) (c :: rest) =
      (some { capacity := tx.capacity,
              data := (tx.data ++ (c :: rest).take tx.getFreeSpace).drop (consumer pass) },
       (c :: rest).take tx.getFreeSpace, 1) := by
  simp [writeLoop, fillLoop_spec]

theorem writeLoop_zero_some (tw : Bool) :
    ∀ (fuel pass : Nat) (tx : SerialBuffer) (rem : List Byte),
      (writeLoop (fun _ => 0) tw fuel pass (some tx) rem).1 =
        some { tx with
          data := tx.data ++ (writeLoop (fun _ => 0) tw fuel pass (some tx) rem).2.1 } := by
  intro fuel
  induction fuel with
  | zero => intro pass tx rem; simp [writeLoop]
  | succ f ih =>
    intro pass tx rem
    cases rem with
    | nil => simp [writeLoop]
    | cons c rest =>
      cases tw with
      | false => simp [writeLoop_cons_false]
      | true =>
        rw [writeLoop_cons_true]
        have h := ih (pass + 1)
          { capacity := tx.capacity,
            data := tx.data ++ (c :: rest).take tx.getFreeSpace }
          ((c :: rest).drop ((c :: rest).take tx.getFreeSpace).length)
        simp only [List.drop_zero, List.length_take, List.length_cons] at h ⊢
        simp [h, List.append_assoc]

theorem writeLoop_txwait_complete (consumer : Nat → Nat)
    (hc : ∀ i, 1 ≤ consumer i) :
    ∀ (fuel : Nat) (rem : List Byte) (tx : SerialBuffer) (pass : Nat),
      rem.length + 1 ≤ fuel → tx.data.length < tx.capacity →
      (writeLoop consumer true fuel pass (some tx) rem).2.1 = rem := by
  intro fuel
  induction fuel with
  | zero => intro rem tx pass h1 _; exact absurd h1 (by omega)
  | succ f ih =>
    intro rem tx pass h1 h2
    cases rem with
    | nil => simp [writeLoop]
    | cons c rest =>
      rw [writeLoop_cons_true]
      have hgf : tx.getFreeSpace = tx.capacity - tx.data.length := rfl
      have hfree : 1 ≤ tx.getFreeSpace := by omega
      have hklen : ((c :: rest).take tx.getFreeSpace).length =
          min tx.getFreeSpace (rest.length + 1) := by
        simp [List.length_take]
      have hk1 : 1 ≤ ((c :: rest).take tx.getFreeSpace).length := by
        rw [hklen]; omega
      have hkfree : ((c :: rest).take tx.getFreeSpace).length ≤ tx.getFreeSpace := by
        rw [hklen]; omega
      have hrem : (((c :: rest).drop ((c :: rest).take tx.getFreeSpace).length).length + 1 ≤ f) := by
        rw [List.length_drop]
        simp only [List.length_cons] at h1 ⊢
        omega
      have htx2 : ((tx.data ++ (c :: rest).take tx.getFreeSpace).drop (consumer pass)).length
          < tx.capacity := by
        rw [List.length_drop, List.length_append]
        have := hc pass
        omega
      have hrec := ih ((c :: rest).drop ((c :: rest).take tx.getFreeSpace).length)
        { capacity := tx.capacity,
          data := (tx.data ++ (c :: rest).take tx.getFreeSpace).drop (consumer pass) }
        (pass + 1) hrem htx2
      simp only []
      rw [hrec]
      exact take_drop_len (c :: rest) tx.getFreeSpace

theorem writeLoop_txwait_start (consumer : Nat → Nat)
    (hc : ∀ i, 1 ≤ consumer i) (fuel : Nat) (rem : List Byte)
    (tx : SerialBuffer) (pass : Nat) (hwf : tx.data.length ≤ tx.capacity)
    (hcap : 1 ≤ tx.capacity) (hfuel : rem.length + 2 ≤ fuel) :
    (writeLoop consumer true fuel pass (some tx) rem).2.1 = rem := by
  cases fuel with
  | zero => exact absurd hfuel (by omega)
  | succ f =>
    cases rem with
    | nil => simp [writeLoop]
    | cons c rest =>
      rw [writeLoop_cons_true]
      have hgf : tx.getFreeSpace = tx.capacity - tx.data.length := rfl
      have hkfree : ((c :: rest).take tx.getFreeSpace).length ≤ tx.getFreeSpace := by
        rw [List.length_take]; omega
      have hrem : (((c :: rest).drop ((c :: rest).take tx.getFreeSpace).length).length + 1 ≤ f) := by
        rw [List.length_drop]
        simp only [List.length_cons] at hfuel ⊢
        omega
      have htx2 : ((tx.data ++ (c :: rest).take tx.getFreeSpace).drop (consumer pass)).length
          < tx.capacity := by
        rw [List.length_drop, List.length_append]
        have := hc pass
        omega
      have hrec := writeLoop_txwait_complete consumer hc f
        ((c :: rest).drop ((c :: rest).take tx.getFreeSpace).length)
        { capacity := tx.capacity,
          data := (tx.data ++ (c :: rest).take tx.getFreeSpace).drop (consumer pass) }
        (pass + 1) hrem htx2
      simp only []
      rw [hrec]
      exact take_drop_len (c :: rest) tx.getFreeSpace

theorem uart_read_step (u : smg_uart_t) (b : Bool) (n : Nat) :
    txData (uart_read u b n).1 = txData u ∧
    (uart_read u b n).2.1 ++ rxData (uart_read u b n).1 = rxData u ∧
    (uart_read u b n).2.1.length ≤ rxAvailOf u := by
  unfold uart_read
  split
  · simp
  · cases hrb : u.rx_buffer with
    | none => simp [rxData, txData, hrb, rxAvailOf]
    | some rb =>
      simp only [hrb, readLoop_spec]
      refine ⟨rfl, ?_, ?_⟩
      · simp [rxData, hrb, List.take_append_drop]
      · simp [rxAvailOf, SerialBuffer.available, hrb, List.length_take]

theorem uart_write_step (u : smg_uart_t) (b : Bool) (bs : List Byte) (fuel : Nat) :
    rxData (uart_write u b bs (fun _ => 0) fuel).1 = rxData u ∧
    txData (uart_write u b bs (fun _ => 0) fuel).1 =
      txData u ++ (uart_write u b bs (fun _ => 0) fuel).2.1 := by
  unfold uart_write
  split
  · simp
  · cases htb : u.tx_buffer with
    | none =>
      have h := writeLoop_none (fun _ => 0) (txwaitOpt u) fuel 0 bs
      simp [rxData, txData, htb, h.1, h.2]
    | some tx =>
      have h := writeLoop_zero_some (txwaitOpt u) fuel 0 tx bs
      simp [rxData, txData, htb, h]

theorem uart_drain_step (u : smg_uart_t) (n : Nat) :
    rxData (uart_drain u n) ++ txData (uart_drain u n) = rxData u ++ txData u := by
  unfold uart_drain
  cases hrb : u.rx_buffer with
  | none => simp [rxData, txData, hrb]
  | some rb =>
    cases htb : u.tx_buffer with
    | none => simp [rxData, txData, hrb, htb]
    | some tb =>
      simp [rxData, txData, hrb, htb, List.append_assoc, List.take_append_drop]

theorem runOps_fifo : ∀ (ops : List PortOp) (u : smg_uart_t),
    (runOps u ops).2.2 ++ rxData (runOps u ops).1 ++ txData (runOps u ops).1 =
      rxData u ++ txData u ++ (runOps u ops).2.1 := by
  intro ops
  induction ops with
  | nil => intro u; simp [runOps]
  | cons op rest ih =>
    intro u
    cases op with
    | opWrite bs fuel =>
      have hstep := uart_write_step u false bs fuel
      have hrec := ih (uart_write u false bs (fun _ => 0) fuel).1
      simp only [runOps]
      rw [hrec, hstep.1, hstep.2]
      simp [List.append_assoc]
    | opDrain n =>
      have hstep := uart_drain_step u n
      have hrec := ih (uart_drain u n)
      simp only [runOps]
      rw [hrec, hstep]
    | opRead n =>
      have hstep := uart_read_step u false n
      have hrec := ih (uart_read u false n).1
      simp only [List.append_assoc] at hrec
      simp only [runOps, List.append_assoc]
      rw [hrec, ← hstep.1, ← hstep.2.1]
      simp [List.append_assoc]

/-- C1: the claim states that after `smg_uart_uninit` the identifier is
released and a subsequent `smg_uart_init_ex` with the same identifier
succeeds.  The code never clears `uartInstances[uart_nr]` in
`smg_uart_uninit`, so at the failing input — open port 0, close it, open
port 0 again — the first open succeeds but the re-open after close returns
failure (the stale registry entry makes the "already initialised" check
fire). -/
theorem reopen_after_uninit_fails :
    (smg_uart_init_ex initialState cfg0 orcOk).1 = some p0 ∧
    (smg_uart_init_ex
      (smg_uart_uninit (smg_uart_init_ex initialState cfg0 orcOk).2.1
        (smg_uart_init_ex initialState cfg0 orcOk).1).1
      cfg0 orcOk).1 = none := by decide

/-- C2: `smg_uart_init_ex` is atomic on failure: an already-registered
identifier, an out-of-range identifier, an RX allocation failure on an
RX-enabled mode, or a TX allocation failure on a TX-enabled mode each
yield a `none` result, and every failing open leaves the whole process
state (debug selection, interrupt mask, registry — hence any previously
opened port) unchanged and fires no notification. -/
theorem init_ex_failure_atomic (st : UartState) (cfg : smg_uart_config_t)
    (orc : AllocOracle) :
    ((smg_uart_get_uart st cfg.uart_nr).isSome = true →
      (smg_uart_init_ex st cfg orc).1 = none) ∧
    (UART_COUNT ≤ cfg.uart_nr → (smg_uart_init_ex st cfg orc).1 = none) ∧
    (cfg.mode ≠ UART_TX_ONLY → orc.rxOk = false →
      (smg_uart_init_ex st cfg orc).1 = none) ∧
    (cfg.mode ≠ UART_RX_ONLY → orc.txOk = false →
      (smg_uart_init_ex st cfg orc).1 = none) ∧
    ((smg_uart_init_ex st cfg orc).1 = none →
      (smg_uart_init_ex st cfg orc).2 = (st, [])) := by
  refine ⟨?_, ?_, ?_, ?_, init_ex_fail_frame st cfg orc⟩
  · intro h
    simp [smg_uart_init_ex, h]
  · intro h
    have hnone : smg_uart_get_uart st cfg.uart_nr = none := by
      unfold smg_uart_get_uart
      rw [if_neg (by omega)]
    simp [smg_uart_init_ex, hnone, h]
  · intro hm hr
    unfold smg_uart_init_ex
    split
    · rfl
    · split
      · rfl
      · split
        · rfl
        · split
          · rfl
          · rename_i hguard
            exact absurd ⟨hm, hr⟩ hguard
  · intro hm ht
    unfold smg_uart_init_ex
    split
    · rfl
    · split
      · rfl
      · split
        · rfl
        · split
          · rfl
          · split
            · rfl
            · rename_i hguard
              exact absurd ⟨hm, ht⟩ hguard

/-- C2 witness: opening port 0 twice in a row fails on the second attempt
with the state exactly as after the first open, and an RX allocation
failure on the initial state fails the open. -/
theorem init_ex_failure_atomic_witness :
    (smg_uart_init_ex (smg_uart_init_ex initialState cfg0 orcOk).2.1 cfg0 orcOk).1
      = none ∧
    (smg_uart_init_ex (smg_uart_init_ex initialState cfg0 orcOk).2.1 cfg0 orcOk).2
      = ((smg_uart_init_ex initialState cfg0 orcOk).2.1, []) ∧
    (smg_uart_init_ex initialState cfg0 orcNoRx).1 = none := by
  have h := init_ex_failure_atomic
    (smg_uart_init_ex initialState cfg0 orcOk).2.1 cfg0 orcOk
  have h1 := h.1 (by decide)
  have h2 := init_ex_failure_atomic initialState cfg0 orcNoRx
  exact ⟨h1, h.2.2.2.2 h1, h2.2.2.1 (by decide) (by decide)⟩

/-- C3: on a TX-enabled port with a non-null source and non-empty data,
`smg_uart_write` with the TXWAIT option clear performs exactly one fill
pass — returning exactly the bytes that fit in the TX buffer's free space
(none on a full buffer) and firing AFTER_WRITE once — while with the
option set, given a consumer that drains at least one byte at every
AFTER_WRITE notification and enough loop passes, it returns only after
all requested bytes have been written. -/
theorem write_txwait_policy (u : smg_uart_t) (bytes : List Byte)
    (consumer : Nat → Nat) (fuel : Nat)
    (hmode : u.mode ≠ UART_RX_ONLY) (hbytes : bytes ≠ []) :
    (txwaitOpt u = false → 1 ≤ fuel →
      (smg_uart_write (some u) false bytes consumer fuel).2.1 =
        bytes.take (txFreeOf u) ∧
      (smg_uart_write (some u) false bytes consumer fuel).2.2.length = 1) ∧
    (txwaitOpt u = true → (∀ i, 1 ≤ consumer i) →
      ∀ tb : SerialBuffer, u.tx_buffer = some tb →
      tb.data.length ≤ tb.capacity → 1 ≤ tb.capacity →
      bytes.length + 2 ≤ fuel →
      (smg_uart_write (some u) false bytes consumer fuel).2.1 = bytes) := by
  constructor
  · intro htw hfuel
    cases fuel with
    | zero => exact absurd hfuel (by omega)
    | succ f =>
      cases bytes with
      | nil => exact absurd rfl hbytes
      | cons c rest =>
        cases htb : u.tx_buffer with
        | none =>
          simp [smg_uart_write, uart_write, writeLoop, htw, htb, hmode,
            txFreeOf]
        | some tx =>
          simp [smg_uart_write, uart_write, htw, htb, hmode, txFreeOf,
            writeLoop_cons_false]
  · intro htw hcons tb htb hwf hcap hfuel
    have hloop := writeLoop_txwait_start consumer hcons fuel bytes tb 0
      hwf hcap hfuel
    simp [smg_uart_write, uart_write, htw, htb, hmode, hbytes, hloop]

/-- C3 witness: a 2-byte write to a full TX buffer with TXWAIT clear accepts
nothing and fires AFTER_WRITE once, while a 3-byte write through a 1-byte
TX buffer with TXWAIT set and a consumer draining one byte per pass
returns with all three bytes written. -/
theorem write_txwait_policy_witness :
    (smg_uart_write (some uFullTx) false [7, 8] (fun _ => 0) 3).2.1 = [] ∧
    (smg_uart_write (some uFullTx) false [7, 8] (fun _ => 0) 3).2.2.length = 1 ∧
    (smg_uart_write (some uWait) false [5, 6, 7] (fun _ => 1) 5).2.1
      = [5, 6, 7] := by
  have hA := (write_txwait_policy uFullTx [7, 8] (fun _ => 0) 3
    (by decide) (by decide)).1 (by decide) (by decide)
  have hB := (write_txwait_policy uWait [5, 6, 7] (fun _ => 1) 5
    (by decide) (by decide)).2 (by decide) (fun _ => Nat.le_refl 1)
    { capacity := 1, data := [] } rfl (by decide) (by decide) (by decide)
  exact ⟨by rw [hA.1]; rfl, hA.2, hB⟩

/-- C4: on a freshly opened port, for every sequence of writes, drain steps
and reads, the concatenated bytes returned by the reads are a prefix of the
concatenated bytes accepted by the writes, in order (strict FIFO, no
reordering); and every single read returns at most as many bytes as were
available in the RX buffer at the time of the call. -/
theorem write_read_fifo (st : UartState) (cfg : smg_uart_config_t)
    (orc : AllocOracle) (u : smg_uart_t)
    (hopen : (smg_uart_init_ex st cfg orc).1 = some u) :
    (∀ ops : List PortOp, (runOps u ops).2.2 <+: (runOps u ops).2.1) ∧
    (∀ (v : smg_uart_t) (b : Bool) (n : Nat),
      (uart_read v b n).2.1.length ≤ rxAvailOf v) := by
  constructor
  · intro ops
    have hu := init_ex_some st cfg orc u hopen
    subst hu
    have hfifo := runOps_fifo ops (initPort cfg orc)
    rw [(initPort_buffers_empty cfg orc).1, (initPort_buffers_empty cfg orc).2]
      at hfifo
    simp only [List.nil_append] at hfifo
    exact ⟨rxData (runOps (initPort cfg orc) ops).1 ++
        txData (runOps (initPort cfg orc) ops).1,
      by rw [← List.append_assoc]; exact hfifo⟩
  · intro v b n
    exact (uart_read_step v b n).2.2

/-- C4 witness: on the port opened from `cfg0`, the concrete sequence
write [1,2,3], drain 2, read 5 returns reads that are a prefix of the
accepted writes. -/
theorem write_read_fifo_witness :
    (runOps p0 opsW).2.2 <+: (runOps p0 opsW).2.1 :=
  (write_read_fifo initialState cfg0 orcOk p0 (by decide)).1 opsW

/-- C5: `smg_uart_flush` clears the RX buffer unless the requested mode is
TX_ONLY or the port itself is configured TX_ONLY, and symmetrically clears
the TX buffer unless the requested mode is RX_ONLY or the port is
configured RX_ONLY; in particular flush(RX_ONLY) empties only RX,
flush(TX_ONLY) empties only TX, and an unrestricted (full) flush empties
both. -/
theorem flush_mode_rule (u : smg_uart_t) (m : smg_uart_mode_t) :
    smg_uart_flush (some u) m = some { u with
      rx_buffer := if m ≠ UART_TX_ONLY ∧ u.mode ≠ UART_TX_ONLY
        then u.rx_buffer.map SerialBuffer.clear else u.rx_buffer
      tx_buffer := if m ≠ UART_RX_ONLY ∧ u.mode ≠ UART_RX_ONLY
        then u.tx_buffer.map SerialBuffer.clear else u.tx_buffer } := by
  show some (flushBuffers u m) = _
  rw [flushBuffers_spec]

/-- C6 counterexample: the claim states that `smg_uart_uninit` disarms the
interrupt first and fires BEFORE_CLOSE after the disarm.  At the concrete
input (initial state, a port with identifier 0) the disarm event does NOT
precede the BEFORE_CLOSE notification in the close trace: the code fires
the notification first (uart.cpp line 342) and disarms afterwards (line
344). -/
theorem uninit_disarm_order_cex :
    ¬ ((smg_uart_uninit initialState (some dummyUart)).2.indexOf
          (UartEvent.stopIsrEvt 0) <
        (smg_uart_uninit initialState (some dummyUart)).2.indexOf
          (UartEvent.notifyEvt 0 UART_NOTIFY_BEFORE_CLOSE)) := by decide

/-- C6 (amended): for every close of a non-null open port, `smg_uart_uninit`
fires the BEFORE_CLOSE notification first and disarms the port's interrupt
immediately afterwards — the order opposite to the one the claim lists. -/
theorem uninit_notify_then_disarm (st : UartState) (u : smg_uart_t) :
    (smg_uart_uninit st (some u)).2 =
      [UartEvent.notifyEvt u.uart_nr UART_NOTIFY_BEFORE_CLOSE,
       UartEvent.stopIsrEvt u.uart_nr] := rfl

/-- C7: operations on a mis-configured or absent port are zero-effect
no-ops: `smg_uart_read` returns 0 bytes — leaving the port untouched and
firing nothing — when RX is disabled (null port or TX_ONLY mode), the
destination buffer is null, or max_len is 0, and `smg_uart_write` does
likewise when TX is disabled, the source buffer is null, or len is 0. -/
theorem noop_on_misconfigured (ou : Option smg_uart_t) (b : Bool) (n : Nat)
    (bytes : List Byte) (consumer : Nat → Nat) (fuel : Nat) :
    (smg_uart_rx_enabled ou = false ∨ b = true ∨ n = 0 →
      smg_uart_read ou b n = (ou, [], [])) ∧
    (smg_uart_tx_enabled ou = false ∨ b = true ∨ bytes = [] →
      smg_uart_write ou b bytes consumer fuel = (ou, [], [])) := by
  constructor
  · intro h
    cases ou with
    | none => rfl
    | some u =>
      rcases h with h | h | h
      · have hm : u.mode = UART_TX_ONLY := by
          simpa [smg_uart_rx_enabled] using h
        simp [smg_uart_read, uart_read, hm]
      · simp [smg_uart_read, uart_read, h]
      · simp [smg_uart_read, uart_read, h]
  · intro h
    cases ou with
    | none => rfl
    | some u =>
      rcases h with h | h | h
      · have hm : u.mode = UART_RX_ONLY := by
          simpa [smg_uart_tx_enabled] using h
        simp [smg_uart_write, uart_write, hm]
      · simp [smg_uart_write, uart_write, h]
      · simp [smg_uart_write, uart_write, h]

/-- C7 witness: reading 4 bytes from a TX-only port holding RX data returns
nothing and changes nothing, and writing through a null port returns
nothing. -/
theorem noop_on_misconfigured_witness :
    smg_uart_read (some uTxOnly) false 4 = (some uTxOnly, [], []) ∧
    smg_uart_write none false [1] (fun _ => 0) 1 = (none, [], []) := by
  have h1 := (noop_on_misconfigured (some uTxOnly) false 4 [1] (fun _ => 0) 1).1
    (Or.inl (by decide))
  have h2 := (noop_on_misconfigured none false 4 [1] (fun _ => 0) 1).2
    (Or.inl rfl)
  exact ⟨h1, h2⟩

/-- C8: closing the port currently selected as the debug sink resets the
debug selection to UART_NO — in particular after `smg_uart_set_debug` to an
open port's identifier followed by `smg_uart_uninit` of that same port,
`smg_uart_get_debug` reports UART_NO — while closing a port that is not the
debug sink leaves the selection unchanged. -/
theorem debug_port_cleared_on_uninit (st : UartState) (u : smg_uart_t) :
    smg_uart_get_debug
        (smg_uart_uninit (smg_uart_set_debug st (u.uart_nr : Int)) (some u)).1
      = UART_NO ∧
    ((u.uart_nr : Int) ≠ st.s_uart_debug_nr →
      smg_uart_get_debug (smg_uart_uninit st (some u)).1 =
        smg_uart_get_debug st) := by
  constructor
  · simp [smg_uart_uninit, smg_uart_set_debug, smg_uart_get_debug,
      smg_uart_stop_isr, smg_uart_detach]
  · intro h
    simp [smg_uart_uninit, smg_uart_get_debug, smg_uart_stop_isr,
      smg_uart_detach, h]

/-- C8 witness: on the initial state, selecting port 0 as debug sink and
closing port 0 reports UART_NO afterwards, and closing port 0 while the
debug selection is UART_NO (≠ 0) leaves the selection at UART_NO. -/
theorem debug_port_cleared_on_uninit_witness :
    smg_uart_get_debug
        (smg_uart_uninit (smg_uart_set_debug initialState 0) (some dummyUart)).1
      = UART_NO ∧
    smg_uart_get_debug (smg_uart_uninit initialState (some dummyUart)).1 =
      smg_uart_get_debug initialState := by
  have h := debug_port_cleared_on_uninit initialState dummyUart
  exact ⟨h.1, h.2 (by decide)⟩

/-- C9 counterexample: the claim states the RX headroom is overridable per
port through the configuration; in fact no two successful opens can ever
disagree on the resulting `rx_headroom` — `smg_uart_init_ex` stores the
fixed default for every configuration, so the configuration provides no
override. -/
theorem headroom_not_configurable_cex :
    ¬ ∃ (st₁ st₂ : UartState) (c₁ c₂ : smg_uart_config_t)
        (o₁ o₂ : AllocOracle) (u₁ u₂ : smg_uart_t),
      (smg_uart_init_ex st₁ c₁ o₁).1 = some u₁ ∧
      (smg_uart_init_ex st₂ c₂ o₂).1 = some u₂ ∧
      u₁.rx_headroom ≠ u₂.rx_headroom := by
  rintro ⟨st₁, st₂, c₁, c₂, o₁, o₂, u₁, u₂, h₁, h₂, hne⟩
  apply hne
  rw [init_ex_some st₁ c₁ o₁ u₁ h₁, init_ex_some st₂ c₂ o₂ u₂ h₂,
    initPort_rx_headroom, initPort_rx_headroom]

/-- C9 (amended): every successfully opened port has its RX headroom set to
the default derived from the hardware FIFO size and interrupt threshold,
`32 − (UART_RX_FIFO_SIZE − RX_FIFO_FULL_THRESHOLD)`; the configuration
passed to open offers no per-port override (the field can only be changed
on the port object after open). -/
theorem default_headroom_value (st : UartState) (cfg : smg_uart_config_t)
    (orc : AllocOracle) (u : smg_uart_t)
    (h : (smg_uart_init_ex st cfg orc).1 = some u) :
    u.rx_headroom = 32 - (UART_RX_FIFO_SIZE - RX_FIFO_FULL_THRESHOLD) := by
  rw [init_ex_some st cfg orc u h, initPort_rx_headroom]
  rfl

/-- C9 witness: the port opened from `cfg0` has RX headroom
32 − (128 − 120) = 24. -/
theorem default_headroom_value_witness :
    p0.rx_headroom = 32 - (UART_RX_FIFO_SIZE - RX_FIFO_FULL_THRESHOLD) :=
  default_headroom_value initialState cfg0 orcOk p0 (by decide)

/-- C10: `smg_uart_get_uart` is total over all identifier values: it returns
`none` for every identifier at or above UART_COUNT instead of indexing the
registry table, and a non-`none` result is only ever returned for an
in-range identifier. -/
theorem get_uart_bounds (st : UartState) (uart_nr : Nat) :
    (UART_COUNT ≤ uart_nr → smg_uart_get_uart st uart_nr = none) ∧
    ((smg_uart_get_uart st uart_nr).isSome = true → uart_nr < UART_COUNT) := by
  constructor
  · intro h
    unfold smg_uart_get_uart
    rw [if_neg (by omega)]
  · intro h
    by_contra hlt
    unfold smg_uart_get_uart at h
    rw [if_neg hlt] at h
    simp at h

/-- C10 witness: looking up identifier 7 (≥ UART_COUNT) on the initial state
returns `none`. -/
theorem get_uart_bounds_witness : smg_uart_get_uart initialState 7 = none :=
  (get_uart_bounds initialState 7).1 (by decide)
